import Mathlib

/-!
Verification development for the in-memory SQL-subset query engine of the
data-chatbot repository (src/src/utils/sqlEngine.ts).

The engine is embedded shallowly:
* JavaScript row objects (`Record<string, any>`) become association lists
  `Row = List (String × Value)` over a tagged `Value` union; an absent key
  models JS `undefined`.
* JavaScript numbers are modelled by exact rationals `ℚ`; every numeric
  literal exercised by the theorems below is small enough that IEEE-754
  doubles are exact on it.
* Each regular-expression used by the source is hand-translated into a
  dedicated leftmost-scan matcher with the same backtracking behaviour
  (lazy/greedy captures, optional groups, the quote backreference of the
  comparison pattern).
* Host built-ins are modelled where the engine calls them: `parseFloat`
  (prefix parse; the `Infinity`/hex forms are not modelled, no theorem
  depends on them), `Number` (full-string parse), `String(v)` coercion,
  `Math.round`, plain-object key enumeration order (canonical array
  indices first, ascending, then string keys in insertion order),
  `Date.parse` (recognised here for ISO `YYYY-MM-DD` only, the single
  format any claim mentions), and `localeCompare` (modelled as code-point
  comparison; no settled claim exercises it on strings).
-/

set_option allowUnsafeReducibility true

attribute [local semireducible] Rat.add Rat.mul Rat.sub Rat.inv

/-- JS whitespace test (`\s` of the source's regexes), restricted to the
ASCII whitespace characters; the exotic Unicode spaces never occur in the
engine's inputs considered here. -/
def jsIsWs (c : Char) : Bool :=
  c = ' ' || c = '\t' || c = '\n' || c = '\r' || c = '\x0b' || c = '\x0c'

/-- `\w` of the source's regexes: ASCII letters, digits, underscore. -/
def isWordChar (c : Char) : Bool :=
  (c ≥ 'a' && c ≤ 'z') || (c ≥ 'A' && c ≤ 'Z') || (c ≥ '0' && c ≤ '9') || c = '_'

/-- Case-insensitive character equality (the `/i` regex flag; ASCII). -/
def ciEq (a b : Char) : Bool := a.toLower = b.toLower

/-- `text` starts with `pat`, case-insensitively. -/
def startsCI : List Char → List Char → Bool
  | [], _ => true
  | _ :: _, [] => false
  | p :: ps, t :: ts => ciEq p t && startsCI ps ts

/-- `text` starts with `pat`, case-sensitively. -/
def startsCS : List Char → List Char → Bool
  | [], _ => true
  | _ :: _, [] => false
  | p :: ps, t :: ts => (p = t) && startsCS ps ts

/-- Substring containment on char lists (JS `String.prototype.includes`). -/
def containsSub (pat : List Char) : List Char → Bool
  | [] => startsCS pat []
  | c :: cs => startsCS pat (c :: cs) || containsSub pat cs

/-- First index at which `pat` occurs (JS `indexOf`), if any. -/
def idxOfSub (pat : List Char) : List Char → Option Nat
  | [] => if startsCS pat [] then some 0 else none
  | c :: cs =>
    if startsCS pat (c :: cs) then some 0
    else (idxOfSub pat cs).map (· + 1)

/-- JS `String.prototype.trim` (ASCII whitespace). -/
def jsTrimL (l : List Char) : List Char :=
  ((l.dropWhile jsIsWs).reverse.dropWhile jsIsWs).reverse

def jsTrim (s : String) : String := String.mk (jsTrimL s.data)

/-- JS `String.prototype.toLowerCase` (ASCII; `Char.toLower` only maps
`A`-`Z`, exactly the characters the engine's inputs use). -/
def jsToLower (s : String) : String := String.mk (s.data.map Char.toLower)

/-- Lexicographic strict order on char lists: JS `<` on strings is
code-unit comparison, which agrees with code-point comparison on the
basic-plane data involved here. -/
def lexLtCharList : List Char → List Char → Bool
  | [], [] => false
  | [], _ :: _ => true
  | _ :: _, [] => false
  | a :: as, b :: bs => if a < b then true else if b < a then false else lexLtCharList as bs

/-- JS string `<`. -/
def jsStrLt (a b : String) : Bool := lexLtCharList a.data b.data

/-- One step of `replace(/\s+/g, ' ')`: collapse every whitespace run to a
single space.  `afterWs` records whether the previous character was
whitespace already replaced. -/
def collapseWsGo (afterWs : Bool) : List Char → List Char
  | [] => []
  | c :: cs =>
    if jsIsWs c then
      if afterWs then collapseWsGo true cs
      else ' ' :: collapseWsGo true cs
    else c :: collapseWsGo false cs

/-- `s.replace(/\s+/g, ' ')` of the source. -/
def collapseWs (s : String) : String := String.mk (collapseWsGo false s.data)

/-- JS `String.prototype.split` with a plain-string separator, on char
lists; agrees with `String.splitOn` but kept explicit so every theorem
reduces by computation. -/
def splitOnLGo (sep : List Char) : Nat → List Char → List Char → List (List Char)
  | _, cur, [] => [cur.reverse]
  | 0, cur, l => [cur.reverse ++ l]
  | fuel + 1, cur, c :: cs =>
    if startsCS sep (c :: cs) then
      cur.reverse :: splitOnLGo sep fuel [] (List.drop (sep.length - 1) cs)
    else splitOnLGo sep fuel (c :: cur) cs

def splitOnL (sep l : List Char) : List (List Char) :=
  splitOnLGo sep l.length [] l

def jsSplit (s sep : String) : List String :=
  (splitOnL sep.data s.data).map String.mk

/-- The typed values a row can hold: the JS dynamic values the engine
actually stores (`null`/`undefined` collapse to `null`; an absent key is
modelled by a failed lookup). -/
inductive Value where
  | null
  | bool (b : Bool)
  | num (q : ℚ)
  | str (s : String)
deriving DecidableEq, Repr

/-- A row object: association list from column name to value, in key
insertion order (JS object property order for string keys). -/
abbrev Row := List (String × Value)

/-- `row[k]`: `none` models JS `undefined` (absent property). -/
def rowGet (r : Row) (k : String) : Option Value := List.lookup k r

/-- `row[k] = v`: assignment keeps an existing key's position, otherwise
appends (JS object property insertion order). -/
def rowSet (r : Row) (k : String) (v : Value) : Row :=
  if (List.lookup k r).isSome then
    r.map (fun e => if e.1 = k then (k, v) else e)
  else r ++ [(k, v)]

/-- Digits of a char run as a natural number. -/
def digitsToNat (ds : List Char) : Nat :=
  ds.foldl (fun a c => a * 10 + (c.toNat - 48)) 0

/-- Parse an optional exponent part `e`/`E` `[+-]? digits`; `none` when the
text does not continue with a well-formed exponent (in which case the
caller leaves the text unconsumed, as both `parseFloat` and `Number` do). -/
def parseExpPart : List Char → Option (Int × List Char)
  | c :: rest =>
    if c = 'e' || c = 'E' then
      match rest with
      | '+' :: r2 =>
        let (ds, r3) := r2.span Char.isDigit
        if ds.isEmpty then none else some ((digitsToNat ds : Int), r3)
      | '-' :: r2 =>
        let (ds, r3) := r2.span Char.isDigit
        if ds.isEmpty then none else some (-(digitsToNat ds : Int), r3)
      | r2 =>
        let (ds, r3) := r2.span Char.isDigit
        if ds.isEmpty then none else some ((digitsToNat ds : Int), r3)
    else none
  | [] => none

/-- Scale a rational by `10^e` for a signed exponent. -/
def scalePow10 (q : ℚ) (e : Int) : ℚ :=
  if e ≥ 0 then q * (10 : ℚ) ^ e.toNat else q / (10 : ℚ) ^ (-e).toNat

/-- Core decimal-literal parser shared by the `parseFloat` and `Number`
models: `[+-]? ( digits [. digits*] | . digits+ ) [exponent]`, returning
the value and the unconsumed rest. -/
def parseDecCore (l : List Char) : Option (ℚ × List Char) :=
  let (sgn, l1) : ℚ × List Char :=
    match l with
    | '+' :: r => (1, r)
    | '-' :: r => (-1, r)
    | _ => (1, l)
  let (d1, l2) := l1.span Char.isDigit
  let cont : List Char × List Char :=
    match l2 with
    | '.' :: r => let (d2, l3) := r.span Char.isDigit; (d2, l3)
    | _ => ([], l2)
  let d2 := cont.1
  let l3 := cont.2
  if d1.isEmpty && d2.isEmpty then none
  else
    let mant : ℚ := (digitsToNat (d1 ++ d2) : ℚ) / (10 : ℚ) ^ d2.length
    match parseExpPart l3 with
    | some (e, l4) => some (sgn * scalePow10 mant e, l4)
    | none => some (sgn * mant, l3)

/-- Model of JS `parseFloat`: skip leading whitespace, parse the longest
numeric prefix, ignore trailing text; `none` is `NaN`.  (The `Infinity`
and non-decimal forms are not modelled; no theorem below exercises them.) -/
def jsParseFloat (s : String) : Option ℚ :=
  (parseDecCore (s.data.dropWhile jsIsWs)).map (·.1)

/-- Model of JS `Number(string)`: trim, empty means `0`, otherwise the
whole string must be a decimal literal; `none` is `NaN`.  (Hex/binary/
`Infinity` forms are not modelled; no theorem below exercises them.) -/
def jsNumberOfString (s : String) : Option ℚ :=
  let t := jsTrimL s.data
  if t.isEmpty then some 0
  else match parseDecCore t with
    | some (q, rest) => if rest.isEmpty then some q else none
    | none => none

/-- Decimal rendering of a rational whose denominator divides a power of
ten: the JS `Number`-to-string form of every value the engine produces in
the scenarios below.  Falls back to `num/den` notation on a
non-terminating rational (unreachable for engine-produced values). -/
def numToString (q : ℚ) : String :=
  if q.den = 1 then toString q.num
  else
    match (List.range 40).find? (fun k => (q * (10 : ℚ) ^ (k + 1)).den = 1) with
    | some k0 =>
      let k := k0 + 1
      let digits := (toString (q * (10 : ℚ) ^ k).num.natAbs).data
      let padded := List.replicate (k + 1 - digits.length) '0' ++ digits
      let ip := padded.take (padded.length - k)
      let fp := padded.drop (padded.length - k)
      (if q < 0 then "-" else "") ++ String.mk ip ++ "." ++ String.mk fp
    | none => toString q.num ++ "/" ++ toString q.den

/-- JS `String(v)` coercion on stored values. -/
def jsToString : Value → String
  | .null => "null"
  | .bool true => "true"
  | .bool false => "false"
  | .num q => numToString q
  | .str s => s

/-- `String(row[k])`: an absent property stringifies as `"undefined"`. -/
def jsStringOfProp (r : Row) (k : String) : String :=
  match rowGet r k with
  | none => "undefined"
  | some v => jsToString v

/-- `Number(v)` on a stored value (`none` is `NaN`). -/
def jsNumberOfValue : Value → Option ℚ
  | .null => some 0
  | .bool true => some 1
  | .bool false => some 0
  | .num q => some q
  | .str s => jsNumberOfString s

/-- `Number(row[column]) || 0` of the aggregation code: `NaN` (and an
absent property, whose `Number` is `NaN`) coerces to `0`. -/
def numberOrZero (r : Row) (k : String) : ℚ :=
  match rowGet r k with
  | none => 0
  | some v => (jsNumberOfValue v).getD 0

/-- `Math.round`: half rounds toward positive infinity. -/
def jsRound (q : ℚ) : Int := ⌊q + 1 / 2⌋

/-- `Math.round(q * 100) / 100` of the AVG aggregation. -/
def jsRound2 (q : ℚ) : ℚ := (jsRound (q * 100) : ℚ) / 100

/-! ### Regex matchers

Each regular expression of `sqlEngine.ts` is translated into a dedicated
leftmost-scan matcher over char lists.  `scanFirst` mirrors the regex
engine's scan over start positions; the per-pattern attempt functions
mirror greedy runs, lazy captures and the places where backtracking is
observable (the `\s+` before a capture, the optional quote of the
comparison pattern with its backreference). -/

/-- Try an attempt function at every start position, leftmost first. -/
def scanFirst (f : List Char → Option α) : List Char → Option α
  | [] => f []
  | c :: cs =>
    match f (c :: cs) with
    | some r => some r
    | none => scanFirst f cs

/-- Match one keyword (case-insensitively), returning the rest. -/
def matchWordCI (w : List Char) (l : List Char) : Option (List Char) :=
  if startsCI w l then some (l.drop w.length) else none

/-- Match a keyword sequence `w1 \s+ w2 \s+ ... \s+ wn \s+`, returning the
final whitespace run and the text after it (the run is kept because the
regex engine can backtrack inside that final `\s+`). -/
def kwSeq (words : List (List Char)) (l : List Char) : Option (List Char × List Char) :=
  match words with
  | [] => none
  | [w] =>
    (matchWordCI w l).bind (fun l2 =>
      let s := l2.span jsIsWs
      if s.1.isEmpty then none else some s)
  | w :: rest =>
    (matchWordCI w l).bind (fun l2 =>
      let s := l2.span jsIsWs
      if s.1.isEmpty then none else kwSeq rest s.2)

/-- The capture-start candidates produced by backtracking inside a greedy
`\s+` that precedes a capture: all of the run consumed first, then one
whitespace character at a time handed back (at least one stays consumed). -/
def wsCandidates (ws rest : List Char) : List (List Char) :=
  (List.range ws.length).map (fun i => ws.drop (ws.length - i) ++ rest)

def firstSome (l : List (List Char)) (f : List Char → Option α) : Option α :=
  l.findSome? f

/-- Lazy capture `(.+?)` / `(.*?)`: the shortest prefix of length at least
`minLen`, containing no newline (`.` does not match line terminators),
after which `term` matches — or the end of input when `allowEnd` (a `$`
alternative). -/
def lazyCapGo (term : List Char → Bool) (allowEnd : Bool) (minLen : Nat)
    (acc : List Char) : List Char → Option (List Char)
  | [] => if minLen ≤ acc.length && (term [] || allowEnd) then some acc.reverse else none
  | c :: cs =>
    if minLen ≤ acc.length && term (c :: cs) then some acc.reverse
    else if c = '\n' || c = '\r' then none
    else lazyCapGo term allowEnd minLen (c :: acc) cs

/-- Greedy capture `(.+)` / `(.*)`: the longest such prefix. -/
def greedyCapGo (term : List Char → Bool) (allowEnd : Bool) (minLen : Nat)
    (acc : List Char) (best : Option (List Char)) : List Char → Option (List Char)
  | [] => if minLen ≤ acc.length && (term [] || allowEnd) then some acc.reverse else best
  | c :: cs =>
    let best' :=
      if minLen ≤ acc.length && term (c :: cs) then some acc.reverse else best
    if c = '\n' || c = '\r' then best'
    else greedyCapGo term allowEnd minLen (c :: acc) best' cs

/-- Terminator `\s+ w1 \s+ w2 ...` as a prefix test. -/
def wsThenWords (words : List (List Char)) (l : List Char) : Bool :=
  match words with
  | [] => true
  | w :: rest =>
    let s := l.span jsIsWs
    if s.1.isEmpty then false
    else startsCI w s.2 && wsThenWords rest (s.2.drop w.length)

/-- Terminator `\s+from\s+\w` (select-pattern variants that require a
table word after FROM). -/
def wsFromWord (l : List Char) : Bool :=
  let s := l.span jsIsWs
  if s.1.isEmpty then false
  else if startsCI "from".data s.2 then
    let s2 := (s.2.drop 4).span jsIsWs
    if s2.1.isEmpty then false
    else match s2.2 with
      | c :: _ => isWordChar c
      | [] => false
  else false

/-- `/(from)\s+(\w+)/` of `executeSelectQuery` (applied to the lowercased
query): first `from` followed by whitespace and a word run. -/
def fromMatch (q : String) : Option String :=
  scanFirst (fun l =>
    match kwSeq ["from".data] l with
    | none => none
    | some (ws, rest) =>
      firstSome (wsCandidates ws rest) (fun inp =>
        let w := inp.takeWhile isWordChar
        if w.isEmpty then none else some (String.mk w))) q.data

/-- `/limit\s+(\d+)/` of `executeSelectQuery`. -/
def limitMatch (q : String) : Option String :=
  scanFirst (fun l =>
    match kwSeq ["limit".data] l with
    | none => none
    | some (ws, rest) =>
      firstSome (wsCandidates ws rest) (fun inp =>
        let w := inp.takeWhile Char.isDigit
        if w.isEmpty then none else some (String.mk w))) q.data

/-- `/WHERE\s+(.+?)(?:\s+GROUP\s+BY|\s+ORDER\s+BY|\s+LIMIT|$)/i`. -/
def whereTerm (l : List Char) : Bool :=
  wsThenWords ["group".data, "by".data] l || wsThenWords ["order".data, "by".data] l
    || wsThenWords ["limit".data] l

def whereMatch (q : String) : Option String :=
  (scanFirst (fun l =>
    match kwSeq ["where".data] l with
    | none => none
    | some (ws, rest) =>
      firstSome (wsCandidates ws rest) (fun inp =>
        lazyCapGo whereTerm true 1 [] inp)) q.data).map String.mk

/-- `/GROUP\s+BY\s+(.+?)(?:\s+ORDER\s+BY|\s+LIMIT|$)/i`. -/
def groupByTerm (l : List Char) : Bool :=
  wsThenWords ["order".data, "by".data] l || wsThenWords ["limit".data] l

def groupByMatch (q : String) : Option String :=
  (scanFirst (fun l =>
    match kwSeq ["group".data, "by".data] l with
    | none => none
    | some (ws, rest) =>
      firstSome (wsCandidates ws rest) (fun inp =>
        lazyCapGo groupByTerm true 1 [] inp)) q.data).map String.mk

/-- `/order\s+by\s+(.+?)(?:\s+limit|$)/` (applied to the lowercased query). -/
def orderByMatch (q : String) : Option String :=
  (scanFirst (fun l =>
    match kwSeq ["order".data, "by".data] l with
    | none => none
    | some (ws, rest) =>
      firstSome (wsCandidates ws rest) (fun inp =>
        lazyCapGo (wsThenWords ["limit".data]) true 1 [] inp)) q.data).map String.mk

/-- `/select\s+(.+?)\s+from/i` of the final column-selection step. -/
def selectMatch (q : String) : Option String :=
  (scanFirst (fun l =>
    match kwSeq ["select".data] l with
    | none => none
    | some (ws, rest) =>
      firstSome (wsCandidates ws rest) (fun inp =>
        lazyCapGo (wsThenWords ["from".data]) false 1 [] inp)) q.data).map String.mk

/-! ### SELECT-clause extraction cascade of `applyGroupBy` -/

/-- One `select\s+(...)...` pattern of the cascade: `lazy` selects between
`(.*?)`/`(.+?)` and `(.*)`/`(.+)` captures, `minLen` between `*` and `+`,
`term` is the text required after the capture. -/
def selectCapturePat (lazy : Bool) (minLen : Nat) (term : List Char → Bool)
    (q : List Char) : Option String :=
  (scanFirst (fun l =>
    match kwSeq ["select".data] l with
    | none => none
    | some (ws, rest) =>
      firstSome (wsCandidates ws rest) (fun inp =>
        if lazy then lazyCapGo term false minLen [] inp
        else greedyCapGo term false minLen [] none inp)) q).map String.mk

/-- The six patterns tried in order by `applyGroupBy` (lines 427-434). -/
def selectPatList : List (List Char → Option String) :=
  [ selectCapturePat true 0 wsFromWord,                                -- select\s+(.*?)\s+from\s+\w+
    selectCapturePat true 0 (wsThenWords ["from".data]),               -- select\s+(.*?)\s+from
    selectCapturePat false 0 wsFromWord,                               -- select\s+(.*)\s+from\s+\w+
    selectCapturePat true 1 (wsThenWords ["from".data]),               -- select\s+(.+?)\s+from
    selectCapturePat true 0
      (fun rem => wsThenWords ["from".data] rem || rem.all jsIsWs),    -- select\s+(.*?)(?:\s+from|\s*$)
    selectCapturePat false 1 (fun _ => true) ]                         -- select\s+(.+)

/-- Run the pattern cascade on one query string: a pattern is accepted only
when its capture is non-empty after trimming (`match && match[1] &&
match[1].trim()`). -/
def tryPatterns (q : String) : Option String :=
  selectPatList.findSome? (fun p =>
    match p q.data with
    | some cap => if jsTrim cap = "" then none else some (jsTrim cap)
    | none => none)

/-- JS `String.prototype.substring` (swaps its arguments when start > end). -/
def jsSubstring (l : List Char) (a b : Nat) : List Char :=
  let lo := min a b
  let hi := max a b
  (l.take hi).drop lo

/-- The "desperate" manual extraction: text between the first `select` and
the first `from` of the lowercased query (lines 463-474). -/
def manualExtract (q : String) : Option String :=
  let lower := (jsToLower q).data
  match idxOfSub "select".data lower, idxOfSub "from".data lower with
  | some si, some fi =>
    if si < fi then
      let extracted := jsTrim (String.mk (jsSubstring q.data (si + 6) fi))
      if extracted = "" then none else some extracted
    else none
  | _, _ => none

/-- Full SELECT-projection extraction of `applyGroupBy`: patterns on the
whitespace-collapsed query, then on the original query, then the manual
fallback; `none` becomes the `Invalid SELECT clause` error. -/
def extractSelectClause (originalQuery : String) : Option String :=
  let clean := jsTrim (collapseWs originalQuery)
  match tryPatterns clean with
  | some sc => some sc
  | none =>
    match tryPatterns originalQuery with
    | some sc => some sc
    | none => manualExtract originalQuery

/-! ### WHERE leaf-condition matchers (`evaluateSingleCondition`) -/

/-- `/(\w+)\s+LIKE\s+['"]%([^%'"]+)%['"]?/i`. -/
def likeAttempt (l : List Char) : Option (String × String) :=
  let s0 := l.span isWordChar
  if s0.1.isEmpty then none
  else
    let s1 := s0.2.span jsIsWs
    if s1.1.isEmpty then none
    else if startsCI "like".data s1.2 then
      let s2 := (s1.2.drop 4).span jsIsWs
      if s2.1.isEmpty then none
      else
        match s2.2 with
        | q :: '%' :: r6 =>
          if q = '\'' || q = '"' then
            let s3 := r6.span (fun c => !(c = '%' || c = '\'' || c = '"'))
            if s3.1.isEmpty then none
            else match s3.2 with
              | '%' :: _ => some (String.mk s0.1, String.mk s3.1)
              | _ => none
          else none
        | _ => none
    else none

def likeMatch (c : String) : Option (String × String) := scanFirst likeAttempt c.data

/-- `/(\w+)\s+IN\s*\(([^)]+)\)/i`. -/
def inAttempt (l : List Char) : Option (String × String) :=
  let s0 := l.span isWordChar
  if s0.1.isEmpty then none
  else
    let s1 := s0.2.span jsIsWs
    if s1.1.isEmpty then none
    else if startsCI "in".data s1.2 then
      let s2 := (s1.2.drop 2).span jsIsWs
      match s2.2 with
      | '(' :: r =>
        let s3 := r.span (fun c => !(c = ')'))
        if s3.1.isEmpty then none
        else match s3.2 with
          | ')' :: _ => some (String.mk s0.1, String.mk s3.1)
          | _ => none
      | _ => none
    else none

def inMatch (c : String) : Option (String × String) := scanFirst inAttempt c.data

/-- A `\d+(?:\.\d+)?` number token of the BETWEEN pattern. -/
def reNumToken (l : List Char) : Option (List Char × List Char) :=
  let s0 := l.span Char.isDigit
  if s0.1.isEmpty then none
  else
    match s0.2 with
    | '.' :: r =>
      let s1 := r.span Char.isDigit
      if s1.1.isEmpty then some (s0.1, s0.2)
      else some (s0.1 ++ '.' :: s1.1, s1.2)
    | _ => some (s0.1, s0.2)

/-- `/(\w+)\s+BETWEEN\s+(\d+(?:\.\d+)?)\s+AND\s+(\d+(?:\.\d+)?)/i`. -/
def betweenAttempt (l : List Char) : Option (String × String × String) :=
  let s0 := l.span isWordChar
  if s0.1.isEmpty then none
  else
    let s1 := s0.2.span jsIsWs
    if s1.1.isEmpty then none
    else if startsCI "between".data s1.2 then
      let s2 := (s1.2.drop 7).span jsIsWs
      if s2.1.isEmpty then none
      else
        match reNumToken s2.2 with
        | none => none
        | some (n1, r1) =>
          let s3 := r1.span jsIsWs
          if s3.1.isEmpty then none
          else if startsCI "and".data s3.2 then
            let s4 := (s3.2.drop 3).span jsIsWs
            if s4.1.isEmpty then none
            else
              match reNumToken s4.2 with
              | none => none
              | some (n2, _) => some (String.mk s0.1, String.mk n1, String.mk n2)
          else none
    else none

def betweenMatch (c : String) : Option (String × String × String) :=
  scanFirst betweenAttempt c.data

/-- `/(\w+)\s+IS\s+(NOT\s+)?NULL/i`. -/
def nullAttempt (l : List Char) : Option (String × Bool) :=
  let s0 := l.span isWordChar
  if s0.1.isEmpty then none
  else
    let s1 := s0.2.span jsIsWs
    if s1.1.isEmpty then none
    else if startsCI "is".data s1.2 then
      let s2 := (s1.2.drop 2).span jsIsWs
      if s2.1.isEmpty then none
      else
        let notBranch : Option (String × Bool) :=
          if startsCI "not".data s2.2 then
            let s3 := (s2.2.drop 3).span jsIsWs
            if s3.1.isEmpty then none
            else if startsCI "null".data s3.2 then some (String.mk s0.1, true)
            else none
          else none
        match notBranch with
        | some r => some r
        | none =>
          if startsCI "null".data s2.2 then some (String.mk s0.1, false) else none
    else none

def nullMatch (c : String) : Option (String × Bool) := scanFirst nullAttempt c.data

/-- Operator characters of `([><=!]+|<>)`. -/
def opChar (c : Char) : Bool := c = '>' || c = '<' || c = '=' || c = '!'

/-- `/(\w+)\s*([><=!]+|<>)\s*(['"]?)([^'"]*)\3/`: the optional quote group
backtracks to the empty alternative when no matching close quote follows
(in which case the value capture is empty, matching the regex engine). -/
def comparisonAttempt (l : List Char) : Option (String × String × String) :=
  let s0 := l.span isWordChar
  if s0.1.isEmpty then none
  else
    let r1 := (s0.2.span jsIsWs).2
    let s1 := r1.span opChar
    if s1.1.isEmpty then none
    else
      let r2 := (s1.2.span jsIsWs).2
      match r2 with
      | q :: r3 =>
        if q = '\'' || q = '"' then
          let s2 := r3.span (fun c => !(c = '\'' || c = '"'))
          match s2.2 with
          | c2 :: _ =>
            if c2 = q then some (String.mk s0.1, String.mk s1.1, String.mk s2.1)
            else some (String.mk s0.1, String.mk s1.1, "")
          | [] => some (String.mk s0.1, String.mk s1.1, "")
        else
          let s2 := r2.span (fun c => !(c = '\'' || c = '"'))
          some (String.mk s0.1, String.mk s1.1, String.mk s2.1)
      | [] => some (String.mk s0.1, String.mk s1.1, "")

def comparisonMatch (c : String) : Option (String × String × String) :=
  scanFirst comparisonAttempt c.data

/-! ### WHERE evaluation

Rows are threaded through the WHERE evaluator together with their index in
the stored data (`IRow`), because the source's OR branch unions rows via a
JS `Set` of object references: two structurally equal rows at different
positions are distinct references, and a row reference is a member at most
once.  The index is exactly that reference identity. -/

abbrev IRow := Nat × Row

/-- `condition.replace(/^\(|\)$/g, '')`: one leading `(` and one trailing
`)` are removed, each independently of the other. -/
def stripParens (s : String) : String :=
  let l := s.data
  let l1 := match l with
    | '(' :: r => r
    | _ => l
  let l2 := match l1.reverse with
    | ')' :: r => r.reverse
    | _ => l1
  String.mk l2

/-- `LIKE '%v%'` predicate: case-insensitive substring test, on
string-typed values only. -/
def likePred (col val : String) (r : Row) : Bool :=
  match rowGet r col with
  | some (.str s) => containsSub (jsToLower val).data (jsToLower s).data
  | _ => false

/-- `v.trim().replace(/['"]/g, '')` applied to each IN list entry. -/
def stripQuotes (s : String) : String :=
  String.mk (s.data.filter (fun c => !(c = '\'' || c = '"')))

/-- `IN (...)` predicate: case-insensitive string equality against the
stringified row value. -/
def inPred (col : String) (vals : List String) (r : Row) : Bool :=
  vals.any (fun v => jsToLower (jsStringOfProp r col) = jsToLower v)

/-- `BETWEEN a AND b` predicate: inclusive numeric range on
`parseFloat(row[column])`; a non-parsing value never matches. -/
def betweenPred (col : String) (mn mx : ℚ) (r : Row) : Bool :=
  match jsParseFloat (jsStringOfProp r col) with
  | some q => decide (mn ≤ q) && decide (q ≤ mx)
  | none => false

/-- `rowValue === null || rowValue === undefined || rowValue === ''`. -/
def isNullish (r : Row) (col : String) : Bool :=
  match rowGet r col with
  | none => true
  | some .null => true
  | some (.str "") => true
  | some _ => false

def nullPred (col : String) (isNot : Bool) (r : Row) : Bool :=
  if isNot then !(isNullish r col) else isNullish r col

/-- Numeric branch of the generic comparison (both sides parsed). -/
def numericCmp (op : String) (a b : ℚ) : Bool :=
  if op = "=" then a == b
  else if op = "!=" || op = "<>" then a != b
  else if op = ">" then decide (b < a)
  else if op = "<" then decide (a < b)
  else if op = ">=" then decide (b ≤ a)
  else if op = "<=" then decide (a ≤ b)
  else false

/-- String-fallback branch of the generic comparison; the caller passes
both sides already lowercased, exactly as the source does (lines 385-397).
JS string `<`/`>` is code-unit comparison, which is Lean's `String` order
on the ASCII data involved. -/
def stringCmp (op : String) (a b : String) : Bool :=
  if op = "=" then a == b
  else if op = "!=" || op = "<>" then a != b
  else if op = ">" then jsStrLt b a
  else if op = "<" then jsStrLt a b
  else if op = ">=" then !(jsStrLt a b)
  else if op = "<=" then !(jsStrLt b a)
  else false

/-- The generic-comparison filter predicate (lines 364-398): numeric when
both `parseFloat(String(·))` succeed, otherwise both operands are
lowercased and compared as strings — for equality *and* for ordering. -/
def comparisonPred (col op val : String) (r : Row) : Bool :=
  match jsParseFloat (jsStringOfProp r col), jsParseFloat val with
  | some a, some b => numericCmp op a b
  | _, _ => stringCmp op (jsToLower (jsStringOfProp r col)) (jsToLower val)

/-- `evaluateSingleCondition` (lines 300-402): strip outer parentheses,
try the five leaf patterns in order, filter by the first that matches, and
return the input unchanged when none does (the no-op tolerance path; the
function never fails).  The BETWEEN bounds always parse because the
captures are `\d+(\.\d+)?` tokens, so the `getD 0` default is
unreachable. -/
def evaluateSingleCondition (data : List IRow) (condition : String) : List IRow :=
  let c := jsTrim (stripParens condition)
  match likeMatch c with
  | some (col, val) => data.filter (fun ir => likePred col val ir.2)
  | none =>
    match inMatch c with
    | some (col, vlist) =>
      let vals := (jsSplit vlist ",").map (fun v => stripQuotes (jsTrim v))
      data.filter (fun ir => inPred col vals ir.2)
    | none =>
      match betweenMatch c with
      | some (col, n1, n2) =>
        let mn := (jsParseFloat n1).getD 0
        let mx := (jsParseFloat n2).getD 0
        data.filter (fun ir => betweenPred col mn mx ir.2)
      | none =>
        match nullMatch c with
        | some (col, isNot) => data.filter (fun ir => nullPred col isNot ir.2)
        | none =>
          match comparisonMatch c with
          | some (col, op, val) => data.filter (fun ir => comparisonPred col op val ir.2)
          | none => data

/-- Add the rows of `l` to the accumulated JS `Set` contents `acc`:
insertion order, a row reference (index) enters at most once. -/
def jsSetAdd (acc l : List IRow) : List IRow :=
  l.foldl (fun a ir => if a.any (fun jr => jr.1 = ir.1) then a else a ++ [ir]) acc

/-- `evaluateWhereExpression` (lines 267-298).  The source recurses on OR
parts and then AND parts; splitting on `" OR "` removes every occurrence
of that separator from the parts (and likewise for `" AND "`), so the
recursion depth is at most 3 — `fuel = 3` makes the fuel-0 branch
unreachable from `applyWhereClause`. -/
def evalWhere : Nat → List IRow → String → List IRow
  | 0, data, _ => data
  | fuel + 1, data, expression =>
    let ne := jsTrim (collapseWs expression)
    let orParts := jsSplit ne " OR "
    if orParts.length > 1 then
      orParts.foldl (fun acc part => jsSetAdd acc (evalWhere fuel data (jsTrim part))) []
    else
      let andParts := jsSplit ne " AND "
      if andParts.length > 1 then
        andParts.foldl (fun res part => evalWhere fuel res (jsTrim part)) data
      else
        evaluateSingleCondition data ne

/-- `applyWhereClause` (lines 262-265): evaluate the boolean expression
over the indexed rows and forget the indices. -/
def applyWhereClause (data : List Row) (whereClause : String) : List Row :=
  (evalWhere 3 data.enum whereClause).map (·.2)

/-! ### GROUP BY / aggregation (`applyGroupBy`, lines 404-541) -/

/-- The partition key: `null`/`undefined`/`''` collapse to the sentinel
`"NULL"`, everything else is `String(groupValue)`. -/
def jsGroupKey (v : Option Value) : String :=
  match v with
  | none => "NULL"
  | some .null => "NULL"
  | some (.str "") => "NULL"
  | some v => jsToString v

/-- Partition the filtered rows by group key, insertion-ordered (the order
in which each key is first encountered); rows inside a partition keep
their scan order. -/
def buildGroups (data : List Row) (groupColumn : String) : List (String × List Row) :=
  data.foldl (fun groups row =>
    let key := jsGroupKey (rowGet row groupColumn)
    if groups.any (fun g => g.1 = key) then
      groups.map (fun g => if g.1 = key then (g.1, g.2 ++ [row]) else g)
    else groups ++ [(key, [row])]) []

/-- Canonical-array-index test of the ECMAScript object model: a key `P`
is an array index when it is the canonical decimal form of an integer
below `2^32 - 1`.  Such keys enumerate first, in ascending numeric order;
the remaining string keys follow in insertion order. -/
def isArrayIndex (s : String) : Option Nat :=
  let l := s.data
  if l.isEmpty then none
  else if !(l.all Char.isDigit) then none
  else if 1 < l.length && l.head? = some '0' then none
  else
    let n := digitsToNat l
    if n < 4294967295 then some n else none

/-- Stable ascending insertion by the numeric key. -/
def insertAsc (x : Nat × α) : List (Nat × α) → List (Nat × α)
  | [] => [x]
  | y :: ys => if y.1 ≤ x.1 then y :: insertAsc x ys else x :: y :: ys

def sortAsc (l : List (Nat × α)) : List (Nat × α) :=
  l.foldl (fun acc x => insertAsc x acc) []

/-- `Object.entries` on a plain JS object built by string-keyed insertion:
canonical array indices first in ascending numeric order, then the other
keys in insertion order. -/
def objectEntries (l : List (String × α)) : List (String × α) :=
  let idx := l.filterMap (fun e => (isArrayIndex e.1).map (fun n => (n, e)))
  let rest := l.filter (fun e => (isArrayIndex e.1).isNone)
  (sortAsc idx).map (·.2) ++ rest

/-- `(?:as\s+)?(\w+)` after mandatory whitespace, as used by the COUNT,
AVG and SUM column-spec patterns; when the `as` branch cannot complete,
the regex backtracks and the word itself is the alias. -/
def aliasAfterWs (l : List Char) : Option String :=
  let viaAs : Option String :=
    if startsCI "as".data l then
      let s := (l.drop 2).span jsIsWs
      if s.1.isEmpty then none
      else
        let w := s.2.takeWhile isWordChar
        if w.isEmpty then none else some (String.mk w)
    else none
  match viaAs with
  | some a => some a
  | none =>
    let w := l.takeWhile isWordChar
    if w.isEmpty then none else some (String.mk w)

/-- `/count\(\*\)\s+(?:as\s+)?(\w+)/i`. -/
def countAttempt (l : List Char) : Option String :=
  if startsCI "count(*)".data l then
    let s := (l.drop 8).span jsIsWs
    if s.1.isEmpty then none else aliasAfterWs s.2
  else none

def countMatch (c : String) : Option String := scanFirst countAttempt c.data

/-- `/avg\((\w+)\)\s+(?:as\s+)?(\w+)/i`. -/
def avgAttempt (l : List Char) : Option (String × String) :=
  if startsCI "avg(".data l then
    let w := (l.drop 4).takeWhile isWordChar
    if w.isEmpty then none
    else
      match l.drop (4 + w.length) with
      | ')' :: r =>
        let s := r.span jsIsWs
        if s.1.isEmpty then none
        else (aliasAfterWs s.2).map (fun a => (String.mk w, a))
      | _ => none
  else none

def avgMatch (c : String) : Option (String × String) := scanFirst avgAttempt c.data

/-- `/sum\((\w+)\)\s+(?:as\s+)?(\w+)/i`. -/
def sumAttempt (l : List Char) : Option (String × String) :=
  if startsCI "sum(".data l then
    let w := (l.drop 4).takeWhile isWordChar
    if w.isEmpty then none
    else
      match l.drop (4 + w.length) with
      | ')' :: r =>
        let s := r.span jsIsWs
        if s.1.isEmpty then none
        else (aliasAfterWs s.2).map (fun a => (String.mk w, a))
      | _ => none
  else none

def sumMatch (c : String) : Option (String × String) := scanFirst sumAttempt c.data

/-- `(?:as\s+)?(\w+)$`: tail of the anchored alias pattern. -/
def aliasTailEnd (l : List Char) : Option String :=
  let viaAs : Option String :=
    if startsCI "as".data l then
      let s := (l.drop 2).span jsIsWs
      if s.1.isEmpty then none
      else if !s.2.isEmpty && s.2.all isWordChar then some (String.mk s.2)
      else none
    else none
  match viaAs with
  | some a => some a
  | none => if !l.isEmpty && l.all isWordChar then some (String.mk l) else none

/-- `/^(.+?)\s+(?:as\s+)?(\w+)$/i`: lazy source capture (at least one
character, no newline), whitespace, optional `AS`, word alias at the very
end.  Used both by `applyGroupBy` and by `applyColumnSelection`. -/
def aliasSplitGo (acc : List Char) : List Char → Option (String × String)
  | [] => none
  | c :: cs =>
    if c = '\n' || c = '\r' then none
    else
      let acc' := c :: acc
      let s := cs.span jsIsWs
      let attempt : Option (String × String) :=
        if s.1.isEmpty then none
        else (aliasTailEnd s.2).map (fun tgt => (String.mk acc'.reverse, tgt))
      match attempt with
      | some r => some r
      | none => aliasSplitGo acc' cs

def aliasSplitAttempt (l : List Char) : Option (String × String) := aliasSplitGo [] l

/-- Process one SELECT column spec against one group (the body of the
`columnSpecs.forEach` at lines 489-535): COUNT, then AVG, then SUM, then
the plain/aliased group-column cases; any other spec writes nothing. -/
def processSpec (groupColumn groupKey : String) (groupData : List Row)
    (row : Row) (colSpec : String) : Row :=
  match countMatch colSpec with
  | some al => rowSet row al (.num (groupData.length : ℚ))
  | none =>
    match avgMatch colSpec with
    | some (column, al) =>
      let sum := groupData.foldl (fun acc r => acc + numberOrZero r column) 0
      rowSet row al (.num (jsRound2 (sum / (groupData.length : ℚ))))
    | none =>
      match sumMatch colSpec with
      | some (column, al) =>
        rowSet row al (.num (groupData.foldl (fun acc r => acc + numberOrZero r column) 0))
      | none =>
        match aliasSplitAttempt colSpec.data with
        | some (src, tgt) =>
          if jsTrim src = groupColumn then
            rowSet row (jsTrim tgt) (if groupKey = "NULL" then .null else .str groupKey)
          else row
        | none =>
          let columnName := jsTrim colSpec
          if columnName = groupColumn then
            rowSet row columnName (if groupKey = "NULL" then .null else .str groupKey)
          else row

/-- `applyGroupBy`: partition, extract the SELECT projection (cascade plus
manual fallback; exhaustion throws `Invalid SELECT clause`), and emit one
aggregated row per partition in `Object.entries` order. -/
def applyGroupBy (data : List Row) (groupByClause : String) (originalQuery : String) :
    Except String (List Row) :=
  let groupColumn := jsTrim groupByClause
  let groups := buildGroups data groupColumn
  match extractSelectClause originalQuery with
  | none => .error "Invalid SELECT clause - unable to parse column specifications"
  | some selectClause =>
    let columnSpecs := (jsSplit selectClause ",").map jsTrim
    .ok ((objectEntries groups).map (fun g =>
      columnSpecs.foldl (fun row colSpec => processSpec groupColumn g.1 g.2 row colSpec) []))

/-! ### ORDER BY (`applyOrderBy`, lines 543-585) -/

/-- Model of `localeCompare` as code-point comparison.  The host function
is locale/ICU dependent; no settled claim exercises it, and the theorems
below only sort numeric values, which never reach this branch. -/
def localeCompare (a b : String) : Int :=
  if jsStrLt a b then -1 else if jsStrLt b a then 1 else 0

def isLeapYear (y : Nat) : Bool := (y % 4 = 0 && y % 100 ≠ 0) || y % 400 = 0

def daysInMonth (y m : Nat) : Nat :=
  if m = 2 then (if isLeapYear y then 29 else 28)
  else if m = 4 || m = 6 || m = 9 || m = 11 then 30
  else 31

/-- Days from 0001-01-01 to `y`-01-01, proleptic Gregorian. -/
def daysBeforeYearAD (y : Nat) : Nat :=
  365 * (y - 1) + (y - 1) / 4 - (y - 1) / 100 + (y - 1) / 400

def cumMonthDays (y m : Nat) : Nat :=
  ((List.range (m - 1)).map (fun i => daysInMonth y (i + 1))).sum

/-- Model of `Date.parse`, recognised for strict ISO `YYYY-MM-DD` (the
only date shape any claim mentions); the result is the UTC timestamp in
milliseconds.  Everything else is `NaN` (`none`). -/
def jsDateParse (s : String) : Option Int :=
  match s.data with
  | [y1, y2, y3, y4, '-', m1, m2, '-', d1, d2] =>
    if [y1, y2, y3, y4, m1, m2, d1, d2].all Char.isDigit then
      let y := digitsToNat [y1, y2, y3, y4]
      let m := digitsToNat [m1, m2]
      let d := digitsToNat [d1, d2]
      if 1 ≤ m && m ≤ 12 && 1 ≤ d && d ≤ daysInMonth y m then
        some (((daysBeforeYearAD y + cumMonthDays y m + (d - 1) : Nat) : Int)
          - (daysBeforeYearAD 1970 : Nat)) |>.map (· * 86400000)
      else none
    else none
  | _ => none

/-- `s.split(/\s+/)` on an already-trimmed string (the only way the source
calls it): whitespace-run separated tokens, `[""]` for the empty string. -/
def jsSplitWsTrimmed (s : String) : List String :=
  if s.data.isEmpty then [""]
  else ((s.data.splitOnP jsIsWs).filter (fun w => !w.isEmpty)).map String.mk

/-- The per-key value comparison of lines 564-577: string/string by
`localeCompare`, number/number by difference, otherwise by `Date.parse`
when both sides parse, else stringified `localeCompare`. -/
def cmpVals (a b : Value) : Int :=
  match a, b with
  | .str s1, .str s2 => localeCompare s1 s2
  | .num n1, .num n2 => if n1 < n2 then -1 else if n2 < n1 then 1 else 0
  | a, b =>
    match jsDateParse (jsToString a), jsDateParse (jsToString b) with
    | some t1, some t2 => if t1 < t2 then -1 else if t2 < t1 then 1 else 0
    | _, _ => localeCompare (jsToString a) (jsToString b)

/-- `null`/`undefined` in the ORDER BY comparator (empty strings are *not*
nullish here, unlike IS NULL). -/
def ordNullish : Option Value → Bool
  | none => true
  | some .null => true
  | _ => false

/-- The multi-key comparator of lines 553-584: nulls always sort last
regardless of direction; DESC negates only its own key's comparison. -/
def cmpRowsBy (cols : List (String × Bool)) (a b : Row) : Int :=
  match cols with
  | [] => 0
  | (column, isDesc) :: rest =>
    let aVal := rowGet a column
    let bVal := rowGet b column
    if ordNullish aVal then
      (if ordNullish bVal then cmpRowsBy rest a b else 1)
    else if ordNullish bVal then -1
    else
      match aVal, bVal with
      | some av, some bv =>
        let c := cmpVals av bv
        if c ≠ 0 then (if isDesc then -c else c) else cmpRowsBy rest a b
      | _, _ => 0

/-- Stable insertion of `x` (arriving after the accumulated elements)
behind every element not greater than it. -/
def insertCmp (cmp : Row → Row → Int) (x : Row) : List Row → List Row
  | [] => [x]
  | y :: ys => if cmp y x ≤ 0 then y :: insertCmp cmp x ys else x :: y :: ys

/-- `Array.prototype.sort` with a comparator: modelled as the stable sort
(ES2019 requires sort stability; for the consistent comparators arising
below the stable sorted permutation is unique). -/
def stableSortCmp (cmp : Row → Row → Int) (l : List Row) : List Row :=
  l.foldl (fun acc x => insertCmp cmp x acc) []

/-- `applyOrderBy`: parse `col [ASC|DESC]` specifiers (direction defaults
to ASC, `desc` case-insensitively) and sort with the multi-key
comparator. -/
def applyOrderBy (data : List Row) (orderByClause : String) : List Row :=
  let orderColumns := (jsSplit orderByClause ",").map (fun col =>
    let parts := jsSplitWsTrimmed (jsTrim col)
    (parts.headD "", jsToLower (parts.getD 1 "") == "desc"))
  stableSortCmp (cmpRowsBy orderColumns) data

/-! ### Projection (`applyColumnSelection`, lines 587-616) -/

/-- Project each row onto the SELECT list: `source [AS] alias` or a bare
column name; an entry whose source column the row lacks writes nothing. -/
def applyColumnSelection (data : List Row) (selectClause : String) : List Row :=
  let columnSpecs := (jsSplit selectClause ",").map jsTrim
  data.map (fun row =>
    columnSpecs.foldl (fun newRow colSpec =>
      match aliasSplitAttempt colSpec.data with
      | some (src, tgt) =>
        match rowGet row (jsTrim src) with
        | some v => rowSet newRow (jsTrim tgt) v
        | none => newRow
      | none =>
        match rowGet row (jsTrim colSpec) with
        | some v => rowSet newRow (jsTrim colSpec) v
        | none => newRow) [])

/-! ### Engine state and query pipeline -/

inductive DataType where
  | STRING | INTEGER | REAL | BOOLEAN | DATE
deriving DecidableEq, Repr

structure Column where
  name : String
  type : DataType
deriving DecidableEq, Repr

structure Table where
  name : String
  columns : List Column
  data : List Row
deriving DecidableEq, Repr

/-- The static class state of `SQLEngine`: the table map (association
list, case-sensitive names) and the initialized flag. -/
structure EngineState where
  tables : List (String × Table)
  initialized : Bool
deriving DecidableEq, Repr

def tablesGet (ts : List (String × Table)) (n : String) : Option Table :=
  List.lookup n ts

/-- `executeSelectQuery` (lines 205-260).  The pipeline starts from a
fresh copy of the stored row array (`[...table.data]`), so the in-place
sort of `applyOrderBy` reorders only that copy; the engine state is
returned alongside the rows to make the frame property expressible. -/
def executeSelectQuery (st : EngineState) (query : String) :
    Except String (EngineState × List Row) :=
  let normalizedQuery := jsTrim (jsToLower query)
  match fromMatch normalizedQuery with
  | none => .error "FROM clause is required"
  | some tableName =>
    match tablesGet st.tables tableName with
    | none => .error ("Table '" ++ tableName ++ "' does not exist")
    | some table =>
      let result0 := table.data
      let result1 :=
        match whereMatch query with
        | some w => applyWhereClause result0 (jsTrim w)
        | none => result0
      match (match groupByMatch query with
             | some g => applyGroupBy result1 (jsTrim g) query
             | none => .ok result1) with
      | .error e => .error e
      | .ok result2 =>
        let result3 :=
          match orderByMatch normalizedQuery with
          | some o => applyOrderBy result2 (jsTrim o)
          | none => result2
        let result4 :=
          match limitMatch normalizedQuery with
          | some d => result3.take (digitsToNat d.data)
          | none => result3
        let result5 :=
          match selectMatch query with
          | some sc =>
            if jsTrim sc ≠ "*" then applyColumnSelection result4 (jsTrim sc) else result4
          | none => result4
        .ok (st, result5)

/-- `parseAndExecuteSQL` (lines 194-203). -/
def parseAndExecuteSQL (st : EngineState) (query : String) :
    Except String (EngineState × List Row) :=
  if startsCS "select".data (jsToLower (jsTrim query)).data then
    executeSelectQuery st query
  else .error ("Unsupported query type: " ++ query)

/-- `executeQuery` (lines 176-192): the not-initialized guard, then the
try/catch that wraps any pipeline error message. -/
def executeQuery (st : EngineState) (query : String) :
    Except String (EngineState × List Row) :=
  if st.initialized then
    match parseAndExecuteSQL st query with
    | .ok r => .ok r
    | .error msg => .error ("SQL execution failed: " ++ msg)
  else .error "SQL Engine not initialized. Please load data first."

/-- `getTableSchema` (lines 618-632): throws when not initialized, returns
`[]` for an absent table. -/
def getTableSchema (st : EngineState) (tableName : String) :
    Except String (List (String × DataType)) :=
  if st.initialized then
    match tablesGet st.tables tableName with
    | none => .ok []
    | some t => .ok (t.columns.map (fun c => (c.name, c.type)))
  else .error "SQL Engine not initialized"

/-- `getRowCount` (lines 634-641): returns `0` — it does not throw — when
the engine is not initialized or the table is absent. -/
def getRowCount (st : EngineState) (tableName : String) : Nat :=
  if st.initialized then
    match tablesGet st.tables tableName with
    | some t => t.data.length
    | none => 0
  else 0

/-- `reset` (lines 647-650): clear all tables, drop the initialized flag. -/
def reset (_st : EngineState) : EngineState :=
  { tables := [], initialized := false }

/-! ### Type inference (`inferDataType`, lines 144-174) -/

/-- The per-value boolean test of lines 150-155. -/
def isBoolLike : Value → Bool
  | .bool _ => true
  | .str s => s = "true" || s = "false" || jsToLower s = "true" || jsToLower s = "false"
  | .num q => q == 0 || q == 1
  | .null => false

/-- `inferDataType`: filter the non-null, non-empty values of the column,
then BOOLEAN, INTEGER/REAL (all values `Number`-parse finite; INTEGER when
all are integral), DATE (all values `Date.parse`), STRING fallback. -/
def inferDataType (data : List Row) (columnName : String) : DataType :=
  let values := (data.filterMap (fun row => rowGet row columnName)).filter
    (fun v => !(v == Value.null) && !(v == Value.str ""))
  if values.isEmpty then .STRING
  else if values.all isBoolLike then .BOOLEAN
  else if values.all (fun v => (jsNumberOfValue v).isSome) then
    if values.all (fun v => ((jsNumberOfValue v).getD 0).den == 1) then .INTEGER else .REAL
  else if values.all (fun v => (jsDateParse (jsToString v)).isSome) then .DATE
  else .STRING

/-! ### Concrete scenario data -/

/-- The example-scenario rows of the spec (§8). -/
def c1Rows : List Row :=
  [ [("name", .str "A"), ("dept", .str "Eng"), ("salary", .num 70000)],
    [("name", .str "B"), ("dept", .str "Eng"), ("salary", .num 90000)],
    [("name", .str "C"), ("dept", .str "Sales"), ("salary", .num 50000)] ]

/-- An initialized store holding the scenario rows as table `t`. -/
def c1State : EngineState := ⟨[("t", ⟨"t", [], c1Rows⟩)], true⟩

def c1Query : String :=
  "SELECT dept, AVG(salary) AS avg_salary FROM t GROUP BY dept ORDER BY avg_salary DESC"

/-- The output the spec's example scenario claims. -/
def c1ClaimedRows : List Row :=
  [ [("dept", .str "Eng"), ("avg_salary", .num 80000)],
    [("dept", .str "Sales"), ("avg_salary", .num 50000)] ]

/-- C1, counterexample.  On the spec's example scenario the engine does
*not* return the claimed rows: aggregation computes `avg_salary` 80000 and
50000 and ORDER BY puts Eng first, but the final `applyColumnSelection`
pass re-parses `AVG(salary) AS avg_salary` as source column
`"AVG(salary)"`, which is not a key of the aggregated rows, so the
`avg_salary` column is dropped from the output. -/
theorem c1_counterexample :
    executeQuery c1State c1Query
        = .ok (c1State, [[("dept", Value.str "Eng")], [("dept", Value.str "Sales")]])
      ∧ [[("dept", Value.str "Eng")], [("dept", Value.str "Sales")]] ≠ c1ClaimedRows :=
  ⟨rfl, by decide⟩

/-- C1, amended: the query returns exactly the two rows
`[{dept:"Eng"}, {dept:"Sales"}]` in that order — the group averages 80000
and 50000 are computed and drive the DESC sort, but the final projection
omits `avg_salary` because the aggregated rows lack a column literally
named `AVG(salary)`. -/
theorem c1_amended :
    executeQuery c1State c1Query
      = .ok (c1State, [[("dept", Value.str "Eng")], [("dept", Value.str "Sales")]]) :=
  rfl

/-- C7: `SELECT * FROM t` with no other clause returns exactly the stored
rows (hence exactly the stored row count), for every stored table. -/
theorem c7_select_star_row_count (tbl : Table) :
    executeQuery ⟨[("t", tbl)], true⟩ "SELECT * FROM t"
      = .ok (⟨[("t", tbl)], true⟩, tbl.data) :=
  rfl

/-- A sample loaded store used by the reset counterexample. -/
def c9State : EngineState :=
  ⟨[("dataset", ⟨"dataset", [⟨"x", .INTEGER⟩], [[("x", .num 1)]]⟩)], true⟩

/-- C9, counterexample: after `reset()`, `getRowCount` does *not* fail —
it returns the value `0` (lines 634-641 return 0 for an uninitialized
store instead of throwing), contradicting the claim that all engine calls
fail with NotInitialized. -/
theorem c9_counterexample : getRowCount (reset c9State) "dataset" = 0 := rfl

/-- C9, amended: after `reset()` the store holds no tables, and
`executeQuery` and `getTableSchema` fail with the not-initialized error —
but `getRowCount` returns `0` rather than failing. -/
theorem c9_amended (st : EngineState) (q n : String) :
    (reset st).tables = []
      ∧ executeQuery (reset st) q
          = .error "SQL Engine not initialized. Please load data first."
      ∧ getTableSchema (reset st) n = .error "SQL Engine not initialized"
      ∧ getRowCount (reset st) n = 0 :=
  ⟨rfl, rfl, rfl, rfl⟩

/-- Frame lemma for the SELECT pipeline: every successful run returns the
engine state it was given.  The pipeline operates on `[...table.data]`, a
fresh array (line 220), so the in-place sort mutates only that copy and
the stored tables are never written. -/
theorem executeSelectQuery_frame (st : EngineState) (q : String) (st' : EngineState)
    (rows : List Row) : executeSelectQuery st q = .ok (st', rows) → st' = st := by
  intro h
  simp only [executeSelectQuery] at h
  repeat' split at h
  all_goals simp_all

theorem parseAndExecuteSQL_frame (st : EngineState) (q : String) (st' : EngineState)
    (rows : List Row) : parseAndExecuteSQL st q = .ok (st', rows) → st' = st := by
  intro h
  simp only [parseAndExecuteSQL] at h
  split at h
  · exact executeSelectQuery_frame st q st' rows h
  · simp at h

/-- C10: executing any query leaves the Table Store unchanged — every
stored table, its rows, their values and their order are identical before
and after (the returned state equals the input state outright). -/
theorem c10_store_frame (st : EngineState) (q : String) (st' : EngineState)
    (rows : List Row) : executeQuery st q = .ok (st', rows) → st' = st := by
  intro h
  by_cases hi : st.initialized
  · cases hp : parseAndExecuteSQL st q with
    | ok p =>
      have hpe : p = (st', rows) := by
        simp only [executeQuery, hi, if_true, hp] at h
        exact Except.ok.inj h
      exact parseAndExecuteSQL_frame st q st' rows (hpe ▸ hp)
    | error m => simp [executeQuery, hi, hp] at h
  · simp [executeQuery, hi] at h

/-- C10, witness: the frame theorem applied to a concrete successful
query. -/
theorem c10_witness : c1State = c1State :=
  c10_store_frame c1State c1Query c1State
    [[("dept", Value.str "Eng")], [("dept", Value.str "Sales")]] rfl

/-- C4: a WHERE condition matched by none of the five leaf patterns
(after the outer-parenthesis strip and trim the source performs first) is
a no-op filter: `evaluateSingleCondition` returns its input row set
unchanged — and, being a total function, it raises no error. -/
theorem c4_unrecognized_condition_noop (data : List IRow) (condition : String)
    (h1 : likeMatch (jsTrim (stripParens condition)) = none)
    (h2 : inMatch (jsTrim (stripParens condition)) = none)
    (h3 : betweenMatch (jsTrim (stripParens condition)) = none)
    (h4 : nullMatch (jsTrim (stripParens condition)) = none)
    (h5 : comparisonMatch (jsTrim (stripParens condition)) = none) :
    evaluateSingleCondition data condition = data := by
  simp only [evaluateSingleCondition, h1, h2, h3, h4, h5]

/-- C4, witness: the condition `hello world` matches no leaf pattern and
filters nothing. -/
theorem c4_witness :
    evaluateSingleCondition [(0, [("x", Value.str "y")])] "hello world"
      = [(0, [("x", Value.str "y")])] :=
  c4_unrecognized_condition_noop [(0, [("x", Value.str "y")])] "hello world"
    rfl rfl rfl rfl rfl

/-- C8: type inference is deterministic (a congruence — the embedding is
a pure function of the sample), and the precedence
BOOLEAN, INTEGER, REAL, DATE, STRING over the non-null non-empty values
gives the claimed results on the four sample columns, with STRING for a
column having zero non-null samples. -/
theorem c8_type_inference :
    (∀ (d₁ d₂ : List Row) (c₁ c₂ : String), d₁ = d₂ → c₁ = c₂ →
        inferDataType d₁ c₁ = inferDataType d₂ c₂)
      ∧ inferDataType [[("x", Value.str "1")], [("x", Value.str "2")],
          [("x", Value.str "3")]] "x" = .INTEGER
      ∧ inferDataType [[("x", Value.str "1")], [("x", Value.str "2.5")]] "x" = .REAL
      ∧ inferDataType [[("x", Value.str "true")], [("x", Value.str "false")]] "x"
          = .BOOLEAN
      ∧ inferDataType [[("x", Value.str "2024-01-01")],
          [("x", Value.str "not-a-date")]] "x" = .STRING
      ∧ inferDataType ([] : List Row) "x" = .STRING :=
  ⟨fun _ _ _ _ hd hc => hd ▸ hc ▸ rfl, rfl, rfl, rfl, rfl, rfl⟩

/-- C8, witness: the determinism part applied to a concrete sample. -/
theorem c8_witness :
    inferDataType [[("x", Value.str "1")]] "x" = inferDataType [[("x", Value.str "1")]] "x" :=
  c8_type_inference.1 [[("x", Value.str "1")]] [[("x", Value.str "1")]] "x" "x" rfl rfl

/-- The AVG accumulator of line 503 as a mapped sum. -/
theorem foldl_add_numberOrZero (col : String) (gd : List Row) :
    ∀ (a : ℚ), gd.foldl (fun acc r => acc + numberOrZero r col) a
      = a + (gd.map (fun r => numberOrZero r col)).sum := by
  induction gd with
  | nil => intro a; simp
  | cons r l ih => intro a; simp [List.foldl_cons, ih, add_assoc]

/-- C5: an `AVG(column) AS alias` entry binds the alias to the sum of the
group's `Number(row[column]) || 0` coercions (non-numeric and missing
values contribute 0) divided by the number of rows in the group — the row
count, not the count of valid numbers — rounded to 2 decimal places by
`Math.round(x*100)/100`.  The non-empty hypothesis reflects that GROUP BY
partitions are never empty (JS would produce `NaN` on an empty divisor,
which the rational model does not represent). -/
theorem c5_avg_row_count_divisor (groupColumn groupKey : String) (groupData : List Row)
    (row : Row) (colSpec column al : String)
    (hc : countMatch colSpec = none)
    (ha : avgMatch colSpec = some (column, al))
    (_hne : groupData ≠ []) :
    processSpec groupColumn groupKey groupData row colSpec
      = rowSet row al (.num (jsRound2
          (((groupData.map (fun r => numberOrZero r column)).sum)
            / (groupData.length : ℚ)))) := by
  simp only [processSpec, hc, ha, foldl_add_numberOrZero, zero_add]

/-- C5, witness: the Eng group of the example scenario averages to
80000. -/
theorem c5_witness :
    processSpec "dept" "Eng" [[("salary", Value.num 70000)], [("salary", Value.num 90000)]]
        [] "AVG(salary) AS avg_salary" = [("avg_salary", Value.num 80000)] := by
  have h := c5_avg_row_count_divisor "dept" "Eng"
    [[("salary", Value.num 70000)], [("salary", Value.num 90000)]] []
    "AVG(salary) AS avg_salary" "salary" "avg_salary" rfl rfl (by decide)
  rw [h]
  rfl

/-- C3, counterexample.  For the condition `c > 'B'` on a row storing
`"a"`, neither side parses as a number; case-sensitive lexicographic
ordering (which the claim asserts for `>`) would select the row, since
`"B" < "a"` in code-unit order — but the engine lowercases both sides
before ordering comparisons too (line 385-386), compares `"a" > "b"`, and
drops the row. -/
theorem c3_counterexample :
    evaluateSingleCondition [(0, [("c", Value.str "a")])] "c > 'B'" = []
      ∧ jsStrLt "B" "a" = true :=
  ⟨rfl, rfl⟩

/-- C3, amended: when both `parseFloat(String(·))` coercions succeed the
comparison is numeric; otherwise *all six* operators — the orderings
included — compare the two values' text forms after lowercasing both, so
the string fallback is case-insensitive for `>` `<` `>=` `<=` as well,
not case-sensitive as the claim stated. -/
theorem c3_amended (r : Row) (col op val : String) :
    (∀ a b, jsParseFloat (jsStringOfProp r col) = some a → jsParseFloat val = some b →
        comparisonPred col op val r = numericCmp op a b)
      ∧ ((jsParseFloat (jsStringOfProp r col) = none ∨ jsParseFloat val = none) →
        comparisonPred col op val r
          = stringCmp op (jsToLower (jsStringOfProp r col)) (jsToLower val)) := by
  constructor
  · intro a b ha hb
    simp only [comparisonPred, ha, hb]
  · intro h
    rcases h with h | h
    · cases hv : jsParseFloat val <;> simp [comparisonPred, h, hv]
    · cases hr : jsParseFloat (jsStringOfProp r col) <;> simp [comparisonPred, h, hr]

/-- C3, witness: the numeric branch at a concrete comparison. -/
theorem c3_witness :
    comparisonPred "c" ">" "30" [("c", Value.num 35)] = numericCmp ">" 35 30 :=
  (c3_amended [("c", Value.num 35)] "c" ">" "30").1 35 30 rfl rfl

/-! ### C2: OR precedence and set-union semantics of WHERE -/

theorem jsSetAdd_cons (acc : List IRow) (b : IRow) (l : List IRow) :
    jsSetAdd acc (b :: l)
      = jsSetAdd (if acc.any (fun jr => jr.1 = b.1) then acc else acc ++ [b]) l := rfl

/-- Membership in the JS-`Set` union accumulator: a row reference is in
the result iff it was already accumulated or occurs in the added list
with an index fresh to the accumulator. -/
theorem mem_jsSetAdd (x : IRow) : ∀ (l acc : List IRow), (l.map Prod.fst).Nodup →
    (x ∈ jsSetAdd acc l ↔ x ∈ acc ∨ (x ∈ l ∧ ∀ a ∈ acc, a.1 ≠ x.1)) := by
  intro l
  induction l with
  | nil => intro acc _; simp [jsSetAdd]
  | cons b l ih =>
    intro acc hnd
    rw [List.map_cons, List.nodup_cons] at hnd
    obtain ⟨hb, hnd'⟩ := hnd
    rw [jsSetAdd_cons]
    by_cases hblk : acc.any (fun jr => jr.1 = b.1) = true
    · rw [if_pos hblk, ih acc hnd']
      constructor
      · rintro (h | ⟨hl, hf⟩)
        · exact Or.inl h
        · exact Or.inr ⟨List.mem_cons_of_mem _ hl, hf⟩
      · rintro (h | ⟨hbl, hf⟩)
        · exact Or.inl h
        · rcases List.mem_cons.mp hbl with rfl | hl
          · exfalso
            obtain ⟨a, ha, hab⟩ := List.any_eq_true.mp hblk
            exact hf a ha (by simpa using hab)
          · exact Or.inr ⟨hl, hf⟩
    · rw [if_neg hblk, ih (acc ++ [b]) hnd']
      have hfreshb : ∀ a ∈ acc, a.1 ≠ b.1 := by
        intro a ha hab
        exact hblk (List.any_eq_true.mpr ⟨a, ha, by simp [hab]⟩)
      constructor
      · rintro (h | ⟨hl, hf⟩)
        · rcases List.mem_append.mp h with h' | h'
          · exact Or.inl h'
          · have hxb : x = b := by simpa using h'
            subst hxb
            exact Or.inr ⟨List.mem_cons_self _ _, hfreshb⟩
        · refine Or.inr ⟨List.mem_cons_of_mem _ hl, ?_⟩
          intro a ha
          exact hf a (List.mem_append.mpr (Or.inl ha))
      · rintro (h | ⟨hbl, hf⟩)
        · exact Or.inl (List.mem_append.mpr (Or.inl h))
        · rcases List.mem_cons.mp hbl with rfl | hl
          · exact Or.inl (List.mem_append.mpr (Or.inr (by simp)))
          · refine Or.inr ⟨hl, ?_⟩
            intro a ha
            rcases List.mem_append.mp ha with ha' | ha'
            · exact hf a ha'
            · have hab : a = b := by simpa using ha'
              subst hab
              intro hbx
              exact hb (hbx ▸ List.mem_map.mpr ⟨x, hl, rfl⟩)

/-- The union accumulator never duplicates an index. -/
theorem nodup_fst_jsSetAdd : ∀ (l acc : List IRow), (acc.map Prod.fst).Nodup →
    ((jsSetAdd acc l).map Prod.fst).Nodup := by
  intro l
  induction l with
  | nil => intro acc h; exact h
  | cons b l ih =>
    intro acc h
    rw [jsSetAdd_cons]
    by_cases hblk : acc.any (fun jr => jr.1 = b.1) = true
    · rw [if_pos hblk]; exact ih acc h
    · rw [if_neg hblk]
      refine ih _ ?_
      rw [List.map_append]
      refine List.Nodup.append h (List.nodup_singleton _) ?_
      intro a ha hb1
      have hb1' : a = b.1 := by simpa using hb1
      obtain ⟨jr, hjr, hjrfst⟩ := List.mem_map.mp ha
      exact hblk (List.any_eq_true.mpr ⟨jr, hjr, by simp [hjrfst, hb1']⟩)

/-- Adding index-disjoint fresh rows is plain concatenation. -/
theorem jsSetAdd_all_fresh : ∀ (l acc : List IRow), (l.map Prod.fst).Nodup →
    (∀ a ∈ acc, ∀ b ∈ l, a.1 ≠ b.1) → jsSetAdd acc l = acc ++ l := by
  intro l
  induction l with
  | nil => intro acc _ _; simp [jsSetAdd]
  | cons b l ih =>
    intro acc hnd hfr
    rw [List.map_cons, List.nodup_cons] at hnd
    obtain ⟨hb, hnd'⟩ := hnd
    rw [jsSetAdd_cons]
    have hblk : ¬(acc.any (fun jr => jr.1 = b.1) = true) := by
      intro hany
      obtain ⟨a, ha, hab⟩ := List.any_eq_true.mp hany
      exact hfr a ha b (List.mem_cons_self _ _) (by simpa using hab)
    rw [if_neg hblk]
    have hfr' : ∀ a ∈ acc ++ [b], ∀ x ∈ l, a.1 ≠ x.1 := by
      intro a ha x hx
      rcases List.mem_append.mp ha with ha' | ha'
      · exact hfr a ha' x (List.mem_cons_of_mem _ hx)
      · have hab : a = b := by simpa using ha'
        subst hab
        intro hax
        exact hb (hax ▸ List.mem_map.mpr ⟨x, hx, rfl⟩)
    rw [ih (acc ++ [b]) hnd' hfr']
    simp

/-- The claim's canonical mixed AND/OR WHERE expression. -/
def c2Expr : String := "age > 30 AND department = 'Engineering' OR department = 'Sales'"

/-- C2: for every input row set, evaluating the mixed AND/OR expression
gives OR the lowest precedence — each OR operand is a left-to-right AND
filter over the *original* indexed input — and the result is its set
union: a row reference `(i, r)` is in the output iff it is an input row
satisfying `(age > 30 AND department = 'Engineering') OR (department =
'Sales')`, and no input row reference appears twice (the output indices
are nodup).  The last conjunct ties the indexed evaluator to the
pipeline's `applyWhereClause`. -/
theorem c2_or_precedence_set_union (data : List Row) :
    (∀ (i : Nat) (r : Row),
      ((i, r) ∈ evalWhere 3 data.enum c2Expr ↔
        (i, r) ∈ data.enum ∧
          ((comparisonPred "age" ">" "30" r
              && comparisonPred "department" "=" "Engineering" r)
            || comparisonPred "department" "=" "Sales" r) = true))
    ∧ ((evalWhere 3 data.enum c2Expr).map Prod.fst).Nodup
    ∧ applyWhereClause data c2Expr = (evalWhere 3 data.enum c2Expr).map Prod.snd := by
  have hstep : evalWhere 3 data.enum c2Expr
      = jsSetAdd (jsSetAdd []
          ((data.enum.filter (fun ir => comparisonPred "age" ">" "30" ir.2)).filter
            (fun ir => comparisonPred "department" "=" "Engineering" ir.2)))
        (data.enum.filter (fun ir => comparisonPred "department" "=" "Sales" ir.2)) := rfl
  have henum : (data.enum.map Prod.fst).Nodup := by
    rw [List.enum_map_fst]; exact List.nodup_range _
  have hA : (((data.enum.filter (fun ir => comparisonPred "age" ">" "30" ir.2)).filter
      (fun ir => comparisonPred "department" "=" "Engineering" ir.2)).map Prod.fst).Nodup :=
    (((List.filter_sublist _).trans (List.filter_sublist _)).map Prod.fst).nodup henum
  have hB : ((data.enum.filter (fun ir => comparisonPred "department" "=" "Sales" ir.2)).map
      Prod.fst).Nodup :=
    ((List.filter_sublist _).map Prod.fst).nodup henum
  have hA0 : jsSetAdd []
      ((data.enum.filter (fun ir => comparisonPred "age" ">" "30" ir.2)).filter
        (fun ir => comparisonPred "department" "=" "Engineering" ir.2))
      = (data.enum.filter (fun ir => comparisonPred "age" ">" "30" ir.2)).filter
        (fun ir => comparisonPred "department" "=" "Engineering" ir.2) := by
    rw [jsSetAdd_all_fresh _ [] hA (by simp)]
    simp
  refine ⟨?_, ?_, rfl⟩
  · intro i r
    rw [hstep, hA0, mem_jsSetAdd (i, r) _ _ hB]
    have hinj := List.inj_on_of_nodup_map henum
    constructor
    · rintro (hin | ⟨hin, _⟩)
      · rw [List.mem_filter] at hin
        obtain ⟨hin1, hp2⟩ := hin
        rw [List.mem_filter] at hin1
        obtain ⟨henm, hp1⟩ := hin1
        exact ⟨henm, by simp_all⟩
      · rw [List.mem_filter] at hin
        exact ⟨hin.1, by simp_all⟩
    · rintro ⟨henm, hor⟩
      by_cases hp12 : (comparisonPred "age" ">" "30" r
          && comparisonPred "department" "=" "Engineering" r) = true
      · left
        rw [List.mem_filter, List.mem_filter]
        rw [Bool.and_eq_true] at hp12
        exact ⟨⟨henm, hp12.1⟩, hp12.2⟩
      · right
        have hp3 : comparisonPred "department" "=" "Sales" r = true := by
          rcases Bool.or_eq_true_iff.mp hor with h | h
          · exact absurd h hp12
          · exact h
        refine ⟨List.mem_filter.mpr ⟨henm, hp3⟩, ?_⟩
        intro a ha hai
        rw [List.mem_filter] at ha
        obtain ⟨ha1, hap2⟩ := ha
        rw [List.mem_filter] at ha1
        obtain ⟨haenm, hap1⟩ := ha1
        have haeq : a = (i, r) := hinj haenm henm hai
        subst haeq
        exact hp12 (by simp_all)
  · rw [hstep, hA0]
    exact nodup_fst_jsSetAdd _ _ hA

/-! ### C6: group emission order -/

/-- First-encounter deduplication of the group keys, in scan order. -/
def dedupFirst (l : List String) : List String :=
  l.foldl (fun acc k => if acc.any (fun x => x = k) then acc else acc ++ [k]) []

theorem any_fst_map (acc : List (String × List Row)) (k : String) :
    (acc.map Prod.fst).any (fun x => x = k) = acc.any (fun g => g.1 = k) := by
  rw [Bool.eq_iff_iff, List.any_eq_true, List.any_eq_true]
  constructor
  · rintro ⟨x, hx, hxk⟩
    obtain ⟨g, hg, rfl⟩ := List.mem_map.mp hx
    exact ⟨g, hg, hxk⟩
  · rintro ⟨g, hg, hgk⟩
    exact ⟨g.1, List.mem_map.mpr ⟨g, hg, rfl⟩, hgk⟩

/-- The partition map's key list is the first-encounter dedup of the scan
keys (generalized over the fold accumulator). -/
theorem buildGroups_fst_aux (gc : String) : ∀ (rows : List Row) (acc : List (String × List Row)),
    ((rows.foldl (fun groups row =>
        let key := jsGroupKey (rowGet row gc)
        if groups.any (fun g => g.1 = key) then
          groups.map (fun g => if g.1 = key then (g.1, g.2 ++ [row]) else g)
        else groups ++ [(key, [row])]) acc).map Prod.fst)
      = (rows.map (fun row => jsGroupKey (rowGet row gc))).foldl
          (fun acc k => if acc.any (fun x => x = k) then acc else acc ++ [k])
          (acc.map Prod.fst) := by
  intro rows
  induction rows with
  | nil => intro acc; rfl
  | cons row rows ih =>
    intro acc
    rw [List.foldl_cons, List.map_cons, List.foldl_cons, ih]
    congr 1
    rw [any_fst_map]
    by_cases hany : acc.any (fun g => g.1 = jsGroupKey (rowGet row gc)) = true
    · simp only [hany, if_true]
      rw [List.map_map]
      apply List.map_congr_left
      intro g _
      by_cases hg : g.1 = jsGroupKey (rowGet row gc) <;> simp [hg]
    · simp only [hany, if_false, Bool.false_eq_true]
      simp

theorem buildGroups_map_fst (data : List Row) (gc : String) :
    (buildGroups data gc).map Prod.fst
      = dedupFirst (data.map (fun row => jsGroupKey (rowGet row gc))) :=
  buildGroups_fst_aux gc data []

theorem map_insertAsc {α β : Type} (f : α → β) (x : Nat × α) :
    ∀ (l : List (Nat × α)),
      (insertAsc x l).map (fun p => (p.1, f p.2))
        = insertAsc (x.1, f x.2) (l.map (fun p => (p.1, f p.2))) := by
  intro l
  induction l with
  | nil => rfl
  | cons y ys ih =>
    simp only [insertAsc, List.map_cons]
    by_cases h : y.1 ≤ x.1 <;> simp [h, ih, insertAsc]

theorem map_sortAsc_aux {α β : Type} (f : α → β) :
    ∀ (l acc : List (Nat × α)),
      (l.foldl (fun acc x => insertAsc x acc) acc).map (fun p => (p.1, f p.2))
        = (l.map (fun p => (p.1, f p.2))).foldl (fun acc x => insertAsc x acc)
            (acc.map (fun p => (p.1, f p.2))) := by
  intro l
  induction l with
  | nil => intro acc; rfl
  | cons y ys ih =>
    intro acc
    rw [List.foldl_cons, List.map_cons, List.foldl_cons, ih, map_insertAsc]

theorem map_sortAsc {α β : Type} (f : α → β) (l : List (Nat × α)) :
    (sortAsc l).map (fun p => (p.1, f p.2)) = sortAsc (l.map (fun p => (p.1, f p.2))) :=
  map_sortAsc_aux f l []

/-- JS plain-object key enumeration order over a key list: canonical
array indices first, ascending, then the remaining keys in insertion
order. -/
def jsEntryOrder (ks : List String) : List String :=
  ((sortAsc (ks.filterMap (fun k => (isArrayIndex k).map (fun n => (n, k))))).map Prod.snd)
    ++ ks.filter (fun k => (isArrayIndex k).isNone)

theorem objectEntries_map_fst {α : Type} (l : List (String × α)) :
    (objectEntries l).map Prod.fst = jsEntryOrder (l.map Prod.fst) := by
  unfold objectEntries jsEntryOrder
  rw [List.map_append]
  congr 1
  · rw [List.map_map]
    have h1 : (Prod.fst ∘ fun p : Nat × (String × α) => p.2)
        = (Prod.snd ∘ fun p : Nat × (String × α) => (p.1, p.2.1)) := rfl
    rw [h1, ← List.map_map, map_sortAsc]
    congr 1
    rw [List.map_filterMap, List.filterMap_map]
    congr 1
    apply List.filterMap_congr
    intro x _
    simp only [Function.comp]
    cases h : isArrayIndex x.1 <;> simp [h]
  · rw [List.filter_map]
    congr 1

/-- With no array-index-like key, `Object.entries` is plain insertion
order. -/
theorem objectEntries_nil_index {α : Type} (l : List (String × α))
    (h : ∀ e ∈ l, isArrayIndex e.1 = none) : objectEntries l = l := by
  unfold objectEntries
  have hidx : l.filterMap (fun e => (isArrayIndex e.1).map (fun n => (n, e))) = [] := by
    rw [List.filterMap_eq_nil_iff]
    intro e he
    rw [h e he]
    rfl
  rw [hidx]
  have hrest : l.filter (fun e => (isArrayIndex e.1).isNone) = l := by
    rw [List.filter_eq_self]
    intro e he
    rw [h e he]
    rfl
  rw [hrest]
  rfl

theorem length_insertAsc {α : Type} (x : Nat × α) :
    ∀ (l : List (Nat × α)), (insertAsc x l).length = l.length + 1 := by
  intro l
  induction l with
  | nil => rfl
  | cons y ys ih =>
    simp only [insertAsc]
    by_cases h : y.1 ≤ x.1 <;> simp [h, ih]

theorem length_sortAsc_aux {α : Type} :
    ∀ (l acc : List (Nat × α)),
      (l.foldl (fun acc x => insertAsc x acc) acc).length = acc.length + l.length := by
  intro l
  induction l with
  | nil => intro acc; simp
  | cons y ys ih =>
    intro acc
    rw [List.foldl_cons, ih, length_insertAsc]
    simp only [List.length_cons]
    omega

theorem length_sortAsc {α : Type} (l : List (Nat × α)) : (sortAsc l).length = l.length := by
  rw [sortAsc, length_sortAsc_aux]
  simp

theorem length_filterMap_index {α : Type} :
    ∀ (l : List (String × α)),
      (l.filterMap (fun e => (isArrayIndex e.1).map (fun n => (n, e)))).length
        = (l.filter (fun e => (isArrayIndex e.1).isSome)).length := by
  intro l
  induction l with
  | nil => rfl
  | cons e es ih =>
    rw [List.filterMap_cons, List.filter_cons]
    cases h : isArrayIndex e.1 with
    | none => simp [h, ih]
    | some n => simp [h, ih]

theorem length_filter_partition {α : Type} (p : α → Bool) :
    ∀ (l : List α), (l.filter p).length + (l.filter (fun a => !(p a))).length = l.length := by
  intro l
  induction l with
  | nil => rfl
  | cons e es ih =>
    rw [List.filter_cons, List.filter_cons]
    by_cases h : p e <;> simp [h, ← ih] <;> omega

/-- `Object.entries` emits exactly one entry per stored key. -/
theorem objectEntries_length {α : Type} (l : List (String × α)) :
    (objectEntries l).length = l.length := by
  unfold objectEntries
  rw [List.length_append, List.length_map, length_sortAsc, length_filterMap_index]
  have hcongr : l.filter (fun e => (isArrayIndex e.1).isNone)
      = l.filter (fun e => !((isArrayIndex e.1).isSome)) := by
    apply List.filter_congr
    intro e _
    cases isArrayIndex e.1 <;> rfl
  rw [hcongr, length_filter_partition]

/-- C6, amended: GROUP BY emits exactly one output row per distinct group
key, but the emission order is the JS plain-object enumeration order over
the partition map — keys that are canonical array indices come first in
ascending numeric order, and only the remaining keys follow in the order
first encountered; when no key looks like an array index this coincides
with pure first-encounter (insertion) order. -/
theorem c6_amended (data : List Row) (gc q : String) (res : List Row)
    (h : applyGroupBy data gc q = .ok res) :
    res.length = (dedupFirst (data.map (fun row => jsGroupKey (rowGet row (jsTrim gc))))).length
    ∧ (objectEntries (buildGroups data (jsTrim gc))).map Prod.fst
        = jsEntryOrder (dedupFirst (data.map (fun row => jsGroupKey (rowGet row (jsTrim gc)))))
    ∧ ((∀ e ∈ buildGroups data (jsTrim gc), isArrayIndex e.1 = none) →
        (objectEntries (buildGroups data (jsTrim gc))).map Prod.fst
          = dedupFirst (data.map (fun row => jsGroupKey (rowGet row (jsTrim gc))))) := by
  refine ⟨?_, ?_, ?_⟩
  · cases hsc : extractSelectClause q with
    | none =>
      rw [applyGroupBy, hsc] at h
      exact absurd h (by simp)
    | some sc =>
      rw [applyGroupBy, hsc] at h
      have hres := (Except.ok.inj h).symm
      rw [hres, List.length_map, objectEntries_length, ← buildGroups_map_fst,
        List.length_map]
  · rw [objectEntries_map_fst, buildGroups_map_fst]
  · intro hno
    rw [objectEntries_nil_index _ hno, buildGroups_map_fst]

/-- C6, counterexample.  Grouping on numeric keys encountered in the
order 10, 2 emits the key-"2" group first: the partition lives in a plain
JS object, whose canonical-array-index keys enumerate in ascending
numeric order, not in first-encounter order as the claim states for all
key values. -/
theorem c6_counterexample :
    applyGroupBy [[("g", Value.num 10)], [("g", Value.num 2)]] "g"
        "SELECT g, COUNT(*) AS c FROM t GROUP BY g"
      = .ok [[("g", Value.str "2"), ("c", Value.num 1)],
             [("g", Value.str "10"), ("c", Value.num 1)]]
    ∧ ([[("g", Value.num 10)], [("g", Value.num 2)]] : List Row).map
        (fun row => jsGroupKey (rowGet row "g")) = ["10", "2"]
    ∧ (["2", "10"] : List String) ≠ ["10", "2"] :=
  ⟨rfl, rfl, by decide⟩

/-- C6, witness: the amended theorem applied to the numeric-key
scenario. -/
theorem c6_witness :
    ([[("g", Value.str "2"), ("c", Value.num 1)],
      [("g", Value.str "10"), ("c", Value.num 1)]] : List Row).length
      = (dedupFirst (([[("g", Value.num 10)], [("g", Value.num 2)]] : List Row).map
          (fun row => jsGroupKey (rowGet row (jsTrim "g"))))).length :=
  (c6_amended [[("g", Value.num 10)], [("g", Value.num 2)]] "g"
    "SELECT g, COUNT(*) AS c FROM t GROUP BY g"
    [[("g", Value.str "2"), ("c", Value.num 1)],
     [("g", Value.str "10"), ("c", Value.num 1)]] rfl).1
